import Mathlib

/-!
Shallow embedding of etternabot's score identification and replay-analytics
core, together with a verification of the spec's claims about it.

Conventions of the embedding:
* Rust `u32`/`u64` ids and counts are embedded as `Nat` (none of the embedded
  code paths can overflow or rely on wrap-around).
* Rust `i32` accumulators are embedded as `Int`; `i32::MIN` is written out as
  the literal `-2147483648` where the source uses it as a sentinel.
* Rust `f32` values (deviations, wifescores, msd/ssr) are embedded as `ℚ`:
  every embedded computation on them is plain field arithmetic plus
  comparisons, which `ℚ` models exactly.
* `HashSet<UserId>` is embedded as `Finset ℕ`.
* Fallible values are `Option`.
-/

namespace Etternabot

/-! ## OCR data model (src/discord_handler/score_ocr/mod.rs) -/

/-- `Judgements` from score_ocr: the six OCR-read judgement counts. -/
structure Judgements where
  marvelouses : ℕ
  perfects : ℕ
  greats : ℕ
  goods : ℕ
  bads : ℕ
  misses : ℕ
  deriving DecidableEq, Repr

/-- `Rate` from score_ocr: the rate stored as 20x the real rate. -/
structure Rate where
  x20 : ℕ
  deriving DecidableEq, Repr

/-- `etternaonline_api::Difficulty`: the chart difficulty label. -/
inductive Difficulty where
  | Beginner | Easy | Medium | Hard | Challenge | Edit
  deriving DecidableEq, Repr

/-- `EvaluationScreenData` from score_ocr: one OCR reading of a result
screen, every field independently optional. -/
structure EvaluationScreenData where
  rate : Option Rate := none
  pack : Option String := none
  eo_username : Option String := none
  song : Option String := none
  artist : Option String := none
  wifescore : Option ℚ := none
  msd : Option ℚ := none
  ssr : Option ℚ := none
  judgements : Option Judgements := none
  difficulty : Option Difficulty := none
  deriving DecidableEq, Repr

/-- One arm of the `compare!` macro in `probably_equals`: when both operands
are present and the given equality check passes, the weight is added,
otherwise nothing is contributed. -/
def cmpWeight {α : Type} (a b : Option α) (eqc : α → α → Bool) (w : ℤ) : ℤ :=
  match a, b with
  | some x, some y => if eqc x y then w else 0
  | _, _ => 0

/-- The `@float` arm of the `compare!` macro: approximate equality within
absolute tolerance 0.01. -/
def floatEq (x y : ℚ) : Bool :=
  decide (|x - y| ≤ 1 / 100)

/-- The weighted agreement score computed by
`EvaluationScreenData::probably_equals` (score_ocr lines 163–228): the sum of
the fixed per-field weights over the `compare!` invocations, in source
order. -/
def equality_score (a b : EvaluationScreenData) : ℤ :=
  cmpWeight a.rate b.rate (fun x y => decide (x = y)) 2
  + cmpWeight a.pack b.pack (fun x y => decide (x = y)) 3
  + cmpWeight a.eo_username b.eo_username (fun x y => decide (x = y)) 5
  + cmpWeight a.song b.song (fun x y => decide (x = y)) 6
  + cmpWeight a.artist b.artist (fun x y => decide (x = y)) 3
  + cmpWeight a.wifescore b.wifescore floatEq 5
  + cmpWeight a.msd b.msd floatEq 6
  + cmpWeight a.ssr b.ssr floatEq 6
  + cmpWeight a.difficulty b.difficulty (fun x y => decide (x = y)) 2
  + cmpWeight (a.judgements.map Judgements.marvelouses)
      (b.judgements.map Judgements.marvelouses) (fun x y => decide (x = y)) 2
  + cmpWeight (a.judgements.map Judgements.perfects)
      (b.judgements.map Judgements.perfects) (fun x y => decide (x = y)) 2
  + cmpWeight (a.judgements.map Judgements.greats)
      (b.judgements.map Judgements.greats) (fun x y => decide (x = y)) 2
  + cmpWeight (a.judgements.map Judgements.goods)
      (b.judgements.map Judgements.goods) (fun x y => decide (x = y)) 2
  + cmpWeight (a.judgements.map Judgements.bads)
      (b.judgements.map Judgements.bads) (fun x y => decide (x = y)) 2
  + cmpWeight (a.judgements.map Judgements.misses)
      (b.judgements.map Judgements.misses) (fun x y => decide (x = y)) 2

/-- `probably_equals` itself: the weighted score reaches 8. -/
def probably_equals (a b : EvaluationScreenData) : Bool :=
  decide (8 ≤ equality_score a b)

/-- Modelled from the spec: the caller's named threshold constant
`MINIMUM_EQUALITY_SCORE_TO_BE_PROBABLY_EQUAL` is declared in a part of the
score_ocr module that is not among the sources; the spec gives its value
as 8 ("strictly exceeds `threshold` (suggested value: 8)"). -/
def MINIMUM_EQUALITY_SCORE_TO_BE_PROBABLY_EQUAL : ℤ := 8

/-! ## The matching loop of `check_potential_score_screenshot`
(src/discord_handler/mod.rs lines 1132–1174) -/

/-- The inner per-candidate loop: the best `equality_score` of one candidate
over all OCR theme readings, starting from 0 and keeping the strict maximum,
exactly as the `best_equality_score` loop does. -/
def best_theme_score (readings : List EvaluationScreenData)
    (candidate : EvaluationScreenData) : ℤ :=
  readings.foldl
    (fun best r =>
      let s := equality_score r candidate
      if s > best then s else best)
    0

/-- One step of the outer candidate loop: the accumulator carries
`(best_equality_score_so_far, scorekey)`, updated when the candidate's best
theme score strictly exceeds both the threshold and the best so far. -/
def identify_step (readings : List EvaluationScreenData)
    (acc : ℤ × Option String) (candidate : String × EvaluationScreenData) :
    ℤ × Option String :=
  let s := best_theme_score readings candidate.2
  if s > MINIMUM_EQUALITY_SCORE_TO_BE_PROBABLY_EQUAL ∧ s > acc.1 then
    (s, some candidate.1)
  else acc

/-- The candidate-matching loop of `check_potential_score_screenshot`:
candidates are `(scorekey, converted score record)` pairs; the accumulator
starts at `(i32::MIN, None)` and the final scorekey (if any) is returned. -/
def identify_best_match (readings : List EvaluationScreenData)
    (candidates : List (String × EvaluationScreenData)) : Option String :=
  (candidates.foldl (identify_step readings) (-2147483648, none)).2

/-! ## Confirmation tracker (src/discord_handler/mod.rs lines 1199–1255) -/

/-- `Candidate`: one pending OCR score-card candidate tracked per message. -/
structure Candidate where
  message_id : ℕ
  author_id : ℕ
  scorekey : String
  user_id : ℕ
  reactors : Finset ℕ
  score_card_has_been_printed : Bool

/-- `OcrScoreCardManager::add_candidate`: push a fresh candidate with an
empty reactor set and the printed flag unset. -/
def add_candidate (mgr : List Candidate)
    (message_id author_id : ℕ) (scorekey : String) (user_id : ℕ) :
    List Candidate :=
  mgr ++ [{ message_id, author_id, scorekey, user_id,
            reactors := ∅, score_card_has_been_printed := false }]

/-- `OcrScoreCardManager::add_reaction`: find the first candidate for the
reacted message (none → ignore); if its card was already printed, stop;
otherwise insert the reactor and reveal exactly when the reactor set now
contains the author and has at least two members. Returns the updated
manager together with the optional `(scorekey, user_id)` reveal. -/
def add_reaction :
    List Candidate → ℕ → ℕ → List Candidate × Option (String × ℕ)
  | [], _, _ => ([], none)
  | c :: rest, message_id, reactor_id =>
    if c.message_id = message_id then
      if c.score_card_has_been_printed then
        (c :: rest, none)
      else
        let newReactors := insert reactor_id c.reactors
        if c.author_id ∈ newReactors ∧ 2 ≤ newReactors.card then
          ({ c with reactors := newReactors,
                    score_card_has_been_printed := true } :: rest,
           some (c.scorekey, c.user_id))
        else
          ({ c with reactors := newReactors } :: rest, none)
    else
      (c :: (add_reaction rest message_id reactor_id).1,
       (add_reaction rest message_id reactor_id).2)

/-- `State::reaction_add` (src/discord_handler/mod.rs lines 1182–1196),
restricted to its effect on the tracker: reactions by the bot itself return
immediately; all others are forwarded to `add_reaction`. -/
def reaction_add (bot_user_id : ℕ) (mgr : List Candidate)
    (message_id reactor_user_id : ℕ) :
    List Candidate × Option (String × ℕ) :=
  if reactor_user_id = bot_user_id then (mgr, none)
  else add_reaction mgr message_id reactor_user_id

/-- A stream of subsequent reaction events `(message_id, reactor_id)`
processed through `add_reaction`, keeping only the tracker state. -/
def process_reactions (mgr : List Candidate) :
    List (ℕ × ℕ) → List Candidate
  | [] => mgr
  | (mid, rid) :: rest => process_reactions (add_reaction mgr mid rid).1 rest

/-! ## Judge model and judge extraction
(src/discord_handler/mod.rs lines 28–30 and 63–81) -/

/-- Modelled from the spec: `etterna::Judge` (an external crate type) is "a
named bundle of six non-negative timing-window widths (seconds)"; the windows
themselves are only needed as data here. -/
structure Judge where
  name : String
  marvelous_window : ℚ
  perfect_window : ℚ
  great_window : ℚ
  good_window : ℚ
  bad_window : ℚ
  deriving DecidableEq, Repr

/-- Modelled from the spec: the J4 base windows scaled per judge; "nine
built-in judges, numbered 1 (loosest) to 9 (strictest)". -/
def mkJudge (name : String) (scale : ℚ) : Judge :=
  { name
    marvelous_window := 9 / 400 * scale
    perfect_window := 9 / 200 * scale
    great_window := 9 / 100 * scale
    good_window := 27 / 200 * scale
    bad_window := 9 / 50 * scale }

/-- Modelled from the spec: built-in judge 1 (loosest windows). -/
def J1 : Judge := mkJudge "J1" (3 / 2)
/-- Modelled from the spec: built-in judge 2. -/
def J2 : Judge := mkJudge "J2" (4 / 3)
/-- Modelled from the spec: built-in judge 3. -/
def J3 : Judge := mkJudge "J3" (7 / 6)
/-- Modelled from the spec: built-in judge 4 (the reference judge). -/
def J4 : Judge := mkJudge "J4" 1
/-- Modelled from the spec: built-in judge 5. -/
def J5 : Judge := mkJudge "J5" (5 / 6)
/-- Modelled from the spec: built-in judge 6. -/
def J6 : Judge := mkJudge "J6" (2 / 3)
/-- Modelled from the spec: built-in judge 7. -/
def J7 : Judge := mkJudge "J7" (1 / 2)
/-- Modelled from the spec: built-in judge 8. -/
def J8 : Judge := mkJudge "J8" (1 / 3)
/-- Modelled from the spec: built-in judge 9 (strictest windows). -/
def J9 : Judge := mkJudge "J9" (1 / 5)

/-- The `match judge_num` table inside `extract_judge_from_string`:
digits 1–9 select the corresponding built-in judge, anything else none. -/
def judge_of_number (n : ℕ) : Option Judge :=
  match n with
  | 1 => some J1
  | 2 => some J2
  | 3 => some J3
  | 4 => some J4
  | 5 => some J5
  | 6 => some J6
  | 7 => some J7
  | 8 => some J8
  | 9 => some J9
  | _ => none

/-- Whether a character matches the `[jJ]` part of `JUDGE_REGEX`. -/
def isJChar (c : Char) : Bool :=
  c == 'j' || c == 'J'

/-- Numeric value of a digit character. -/
def digitVal (c : Char) : ℕ :=
  c.toNat - '0'.toNat

/-- The captures of `JUDGE_REGEX` (`[jJ](\d)`) over a string, in order: the
left-to-right non-overlapping matches of a j/J followed by a decimal digit,
each capture being the digit character. This is the regex engine's
`captures_iter` semantics. -/
def judge_regex_captures : List Char → List Char
  | c :: d :: rest =>
    if isJChar c && d.isDigit then d :: judge_regex_captures rest
    else judge_regex_captures (d :: rest)
  | _ => []

/-- `extract_judge_from_string` (src/discord_handler/mod.rs lines 63–81):
parse each capture's digit, map it through the judge table, and take the
first result. -/
def extract_judge_from_string (s : List Char) : Option Judge :=
  ((judge_regex_captures s).filterMap (fun d => judge_of_number (digitVal d))).head?

/-- Stated from the spec's words, for comparison: the judge selected by the
first occurrence in the string of `j`/`J` immediately followed by a digit
1–9, scanning one character at a time; none when no such occurrence
exists. -/
def first_judge_occurrence : List Char → Option Judge
  | c :: d :: rest =>
    if isJChar c && ('1' ≤ d && d ≤ '9') then judge_of_number (digitVal d)
    else first_judge_occurrence (d :: rest)
  | _ => none

/-! ## Replay data model (etterna / etternaonline_api types used by
src/score_card/mod.rs) -/

/-- `etterna::Hit`: a note was either hit at a signed deviation in seconds
(negative = early) or missed. -/
inductive Hit where
  | hit (deviation : ℚ)
  | miss
  deriving DecidableEq, Repr

/-- `etterna::NoteType`. -/
inductive NoteType where
  | Tap | HoldHead | HoldTail | Mine | Lift | Keysound | Fake
  deriving DecidableEq, Repr

/-- `etternaonline_api::ReplayNote`: note time, hit outcome, optional lane
and optional note kind. -/
structure ReplayNote where
  time : ℚ
  hit : Hit
  lane : Option ℕ
  note_type : Option NoteType
  deriving DecidableEq, Repr

/-- `etternaonline_api::Replay`: the ordered note sequence. -/
structure Replay where
  notes : List ReplayNote
  deriving DecidableEq, Repr

/-- Placeholder note used to state index-wise properties totally. -/
def defaultNote : ReplayNote :=
  { time := 0, hit := Hit.miss, lane := none, note_type := none }

/-- Modelled from the spec: `Hit::is_considered_miss` of the etterna crate —
"anything outside the widest (miss) window classified as a miss". -/
def is_considered_miss (h : Hit) (j : Judge) : Bool :=
  match h with
  | Hit.miss => true
  | Hit.hit d => decide (j.bad_window < |d|)

/-- Modelled from the spec: `Hit::is_within_window` of the etterna crate —
a genuine hit whose absolute deviation is inside the given window. -/
def is_within_window (h : Hit) (window : ℚ) : Bool :=
  match h with
  | Hit.miss => false
  | Hit.hit d => decide (|d| ≤ window)

/-- Modelled from the spec: the wife-3 per-note point value of the etterna
crate — "0.0–1.0, or negative per formula for misses", a function of the hit
outcome and the judge's windows only (a zero deviation scores the maximum
1). -/
def wife3 (h : Hit) (j : Judge) : ℚ :=
  match h with
  | Hit.miss => -(11 / 2)
  | Hit.hit d =>
    if |d| ≤ j.marvelous_window then 1
    else if |d| ≤ j.bad_window then 1 - |d| / j.bad_window
    else -(11 / 2)

/-- Modelled from the spec: `Wife3::HOLD_DROP_WEIGHT`, the fixed penalty for
a dropped hold. -/
def Wife3_HOLD_DROP_WEIGHT : ℚ := -(9 / 2)

/-- Modelled from the spec: `Wife3::MINE_HIT_WEIGHT`, the fixed penalty for
a hit mine. -/
def Wife3_MINE_HIT_WEIGHT : ℚ := -(11 / 4)

/-- Modelled from the spec: the wife-2 per-note point value, same shape as
wife-3 with its own miss penalty. -/
def wife2 (h : Hit) (j : Judge) : ℚ :=
  match h with
  | Hit.miss => -8
  | Hit.hit d =>
    if |d| ≤ j.marvelous_window then 1
    else if |d| ≤ j.bad_window then 1 - |d| / j.bad_window
    else -8

/-- The two wife formulas used by the scoring-system comparison. -/
inductive WifeVariant where
  | wifeTwo | wifeThree
  deriving DecidableEq, Repr

/-- Per-note points of one wife formula. -/
def wife_points (v : WifeVariant) (h : Hit) (j : Judge) : ℚ :=
  match v with
  | WifeVariant.wifeTwo => wife2 h j
  | WifeVariant.wifeThree => wife3 h j

/-- Mine-hit penalty of one wife formula. -/
def wife_mine_weight (v : WifeVariant) : ℚ :=
  match v with
  | WifeVariant.wifeTwo => -8
  | WifeVariant.wifeThree => Wife3_MINE_HIT_WEIGHT

/-- Dropped-hold penalty of one wife formula. -/
def wife_hold_drop_weight (v : WifeVariant) : ℚ :=
  match v with
  | WifeVariant.wifeTwo => -6
  | WifeVariant.wifeThree => Wife3_HOLD_DROP_WEIGHT

/-- Modelled from the spec: `SimpleReplay::mean_deviation` of the etterna
crate — the "arithmetic mean of the signed deviation of every *hit*
(non-miss) note". -/
def mean_deviation (r : Replay) : ℚ :=
  let devs := r.notes.filterMap (fun n =>
    match n.hit with
    | Hit.hit d => some d
    | Hit.miss => none)
  devs.sum / devs.length

/-- `adjust_offset` (src/score_card/mod.rs lines 71–88): the mean deviation
together with a derived replay whose hit deviations are shifted down by that
mean; misses are untouched. -/
def adjust_offset (r : Replay) : ℚ × Replay :=
  let mean_offset := mean_deviation r
  (mean_offset,
   { notes := r.notes.map (fun note =>
       match note.hit with
       | Hit.hit deviation => { note with hit := Hit.hit (deviation - mean_offset) }
       | Hit.miss => note) })

/-- Stated from the spec's words, for comparison: the bias-corrected copy of
one note — lane, kind, time and a miss outcome unchanged, a hit outcome's
deviation reduced by the mean. -/
def bias_corrected_note (mean : ℚ) (n : ReplayNote) : ReplayNote :=
  { time := n.time
    hit := match n.hit with
           | Hit.hit d => Hit.hit (d - mean)
           | Hit.miss => Hit.miss
    lane := n.lane
    note_type := n.note_type }

/-- `replay_note_wife_points` (src/score_card/mod.rs lines 120–146): the
wife points a replay note contributes and the number of notes it counts as
(0 or 1), with an absent note kind defaulted to `Tap`. -/
def replay_note_wife_points (note : ReplayNote) : ℚ × ℕ :=
  match note.note_type.getD NoteType.Tap with
  | NoteType.Tap | NoteType.HoldHead | NoteType.Lift =>
    (wife3 note.hit J4, 1)
  | NoteType.HoldTail =>
    (if is_considered_miss note.hit J4 then Wife3_HOLD_DROP_WEIGHT else 0, 0)
  | NoteType.Mine =>
    (match note.hit with
     | Hit.hit _ => Wife3_MINE_HIT_WEIGHT
     | Hit.miss => 0, 0)
  | NoteType.Keysound | NoteType.Fake => (0, 0)

/-- `calculate_hand_wifescores` (src/score_card/mod.rs lines 148–170):
average wife points per hand, lanes 0/1 left and 2/3 right, other or absent
lanes skipped. -/
def calculate_hand_wifescores (r : Replay) : ℚ × ℚ :=
  let acc := r.notes.foldl
    (fun (acc : ℚ × ℕ × ℚ × ℕ) note =>
      let (lw, ln, rw, rn) := acc
      match note.lane with
      | some 0 | some 1 =>
        let (p, k) := replay_note_wife_points note
        (lw + p, ln + k, rw, rn)
      | some 2 | some 3 =>
        let (p, k) := replay_note_wife_points note
        (lw, ln, rw + p, rn + k)
      | _ => acc)
    (0, 0, 0, 0)
  let (lw, ln, rw, rn) := acc
  (lw / ln, rw / rn)

/-- Modelled from the spec: `etternaonline_api::rescore` with the naive
scorer — per-note wife points summed over tap-family notes (count 1 each),
dropped-hold and hit-mine penalties from hold tails and mines in the replay
plus the extra counts passed by the caller, averaged over the countable
notes; none when there are zero countable notes. -/
def rescore (r : Replay) (num_hit_mines num_dropped_holds : ℕ)
    (judge : Judge) (v : WifeVariant) : Option ℚ :=
  let per := r.notes.map (fun note =>
    match note.note_type.getD NoteType.Tap with
    | NoteType.Tap | NoteType.HoldHead | NoteType.Lift =>
      (wife_points v note.hit judge, (1 : ℕ))
    | NoteType.HoldTail =>
      (if is_considered_miss note.hit judge then wife_hold_drop_weight v else 0, 0)
    | NoteType.Mine =>
      (match note.hit with
       | Hit.hit _ => wife_mine_weight v
       | Hit.miss => 0, 0)
    | NoteType.Keysound | NoteType.Fake => ((0 : ℚ), (0 : ℕ)))
  let points := (per.map Prod.fst).sum
    + num_hit_mines * wife_mine_weight v
    + num_dropped_holds * wife_hold_drop_weight v
  let count := (per.map Prod.snd).sum
  if count = 0 then none else some (points / count)

/-- Insertion of one rational into a sorted list (ascending). -/
def insertSorted (x : ℚ) : List ℚ → List ℚ
  | [] => [x]
  | y :: rest => if x ≤ y then x :: y :: rest else y :: insertSorted x rest

/-- Ascending sort of hit seconds, the embedding of
`sort_unstable_by(partial_cmp)`. -/
def sort_seconds : List ℚ → List ℚ
  | [] => []
  | x :: rest => insertSorted x (sort_seconds rest)

/-- Modelled from the spec: `etterna::find_fastest_note_subset` — for every
window of exactly `window_size` consecutive timestamps of the (already
sorted) list, the rate `(window_size - 1) / (last - first)` in notes per
second; the maximum such rate, or 0 when fewer than `window_size` (or
`min_notes`) timestamps exist or the span is degenerate. -/
def find_fastest_note_subset (ts : List ℚ) (window_size min_notes : ℕ) : ℚ :=
  if ts.length < window_size ∨ ts.length < min_notes then 0
  else
    (List.range (ts.length + 1 - window_size)).foldl
      (fun best i =>
        let first := ts.getD i 0
        let last := ts.getD (i + window_size - 1) 0
        let rate := if last - first ≤ 0 then 0
                    else ((window_size : ℚ) - 1) / (last - first)
        if rate > best then rate else best)
      0

/-- The second at which a note was actually struck, when it was hit. -/
def hit_second (n : ReplayNote) : Option ℚ :=
  match n.hit with
  | Hit.hit d => some (n.time + d)
  | Hit.miss => none

/-- Modelled from the spec: `Replay::split_into_notes_and_hits` of
etternaonline_api — the note seconds and the hit seconds of the replay; none
for an empty replay ("a replay is absent, empty, or yields degenerate
statistics"). -/
def split_into_notes_and_hits (r : Replay) : Option (List ℚ × List ℚ) :=
  if r.notes.isEmpty then none
  else some (r.notes.map ReplayNote.time, r.notes.filterMap hit_second)

/-- Hit seconds of the notes in one lane. -/
def lane_hit_seconds (r : Replay) (lane : ℕ) : List ℚ :=
  r.notes.filterMap (fun n =>
    if n.lane = some lane then hit_second n else none)

/-- Modelled from the spec: `Replay::split_into_lanes` of etternaonline_api
— the per-lane hit seconds for the four lanes; none for an empty replay or
when a note carries no lane information. -/
def split_into_lanes (r : Replay) : Option (List (List ℚ)) :=
  if r.notes.isEmpty ∨ r.notes.any (fun n => n.lane.isNone) then none
  else some ((List.range 4).map (lane_hit_seconds r))

/-- `fastest_nps` (src/score_card/mod.rs lines 37–47): the 100-note
sliding-window maximum rate over the sorted hit seconds. -/
def fastest_nps (r : Replay) : Option ℚ := do
  let nh ← split_into_notes_and_hits r
  pure (find_fastest_note_subset (sort_seconds nh.2) 100 100)

/-- `max_finger_nps` (src/score_card/mod.rs lines 49–69): the best 20-note
sliding-window rate over any single lane's sorted hit seconds. -/
def max_finger_nps (r : Replay) : Option ℚ := do
  let lanes ← split_into_lanes r
  pure (lanes.foldl
    (fun best lane =>
      let s := find_fastest_note_subset (sort_seconds lane) 20 20
      if s > best then s else best)
    0)

/-- Streak scan for `longest_combo`: current streak and best so far. -/
def longest_combo_scan (pred : Hit → Bool) : List Hit → ℕ → ℕ → ℕ
  | [], _, best => best
  | h :: rest, cur, best =>
    if pred h then longest_combo_scan pred rest (cur + 1) (max best (cur + 1))
    else longest_combo_scan pred rest 0 best

/-- Modelled from the spec: `SimpleReplay::longest_combo` of the etterna
crate — the longest run of consecutive notes satisfying the predicate,
"incrementing while the current note's hit is within the window and
resetting to zero" otherwise. -/
def longest_combo (pred : Hit → Bool) (r : Replay) : ℕ :=
  longest_combo_scan pred (r.notes.map ReplayNote.hit) 0 0

/-- The judgement counts of a fetched score that feed the rescoring
penalties (`etternaonline_api::v1::ScoreData::judgements`, the fields the
analysis uses). -/
structure FullJudgements where
  hit_mines : ℕ
  let_go_holds : ℕ
  missed_holds : ℕ
  deriving DecidableEq, Repr

/-- The part of `etternaonline_api::v1::ScoreData` consumed by
`do_replay_analysis`: the optional replay and the judgement counts. -/
structure ScoreData where
  replay : Option Replay
  judgements : FullJudgements
  deriving DecidableEq, Repr

/-- `ScoringSystemComparison` (src/score_card/mod.rs lines 17–21). -/
structure ScoringSystemComparison where
  wife2_score : ℚ
  wife3_score : ℚ
  wife3_score_zero_mean : ℚ
  deriving DecidableEq, Repr

/-- `ReplayAnalysis` (src/score_card/mod.rs lines 23–35), without the two
presentation-only fields (graph file path and fun-fact strings). -/
structure ReplayAnalysis where
  scoring_system_comparison_j4 : ScoringSystemComparison
  scoring_system_comparison_alternative : Option ScoringSystemComparison
  fastest_finger_jackspeed : ℚ
  fastest_nps : ℚ
  longest_100_combo : ℕ
  longest_marv_combo : ℕ
  longest_perf_combo : ℕ
  longest_combo : ℕ
  mean_offset : ℚ
  deriving DecidableEq, Repr

/-- `make_scoring_system_comparison` (src/score_card/mod.rs lines 90–116):
all three rescored wifescores, each aborting the comparison when
unavailable. -/
def make_scoring_system_comparison (score : ScoreData)
    (replay replay_zero_mean : Replay) (judge : Judge) :
    Option ScoringSystemComparison := do
  let w2 ← rescore replay score.judgements.hit_mines
    (score.judgements.let_go_holds + score.judgements.missed_holds)
    judge WifeVariant.wifeTwo
  let w3 ← rescore replay score.judgements.hit_mines
    (score.judgements.let_go_holds + score.judgements.missed_holds)
    judge WifeVariant.wifeThree
  let w3zm ← rescore replay_zero_mean score.judgements.hit_mines
    (score.judgements.let_go_holds + score.judgements.missed_holds)
    judge WifeVariant.wifeThree
  pure { wife2_score := w2, wife3_score := w3, wife3_score_zero_mean := w3zm }

/-- `do_replay_analysis` (src/score_card/mod.rs lines 261–306): requires a
replay, then builds the analysis, each `?` aborting the whole analysis when
one piece is unavailable. The replay-graph rendering (I/O, sources not
present) is modelled as always succeeding. -/
def do_replay_analysis (score : ScoreData) (alternative_judge : Option Judge) :
    Option ReplayAnalysis := do
  let replay ← score.replay
  let mean_offset := (adjust_offset replay).1
  let replay_zero_mean := (adjust_offset replay).2
  let cj4 ← make_scoring_system_comparison score replay replay_zero_mean J4
  let calt ← (match alternative_judge with
    | some aj =>
      (make_scoring_system_comparison score replay replay_zero_mean aj).map some
    | none => some none)
  let ffj ← max_finger_nps replay
  let fn ← fastest_nps replay
  pure { scoring_system_comparison_j4 := cj4
         scoring_system_comparison_alternative := calt
         fastest_finger_jackspeed := ffj
         fastest_nps := fn
         longest_100_combo := longest_combo (fun h => is_within_window h (1 / 200)) replay
         longest_marv_combo := longest_combo (fun h => is_within_window h J4.marvelous_window) replay
         longest_perf_combo := longest_combo (fun h => is_within_window h J4.perfect_window) replay
         longest_combo := longest_combo (fun h => is_within_window h J4.great_window) replay
         mean_offset := mean_offset }

/-! ## Spec-side formulations used to state the claims -/

/-- Stated from the spec's words: the rate field's contribution — its weight
2 when present in both operands and exactly equal, zero otherwise. -/
def rate_contribution (a b : EvaluationScreenData) : ℤ :=
  if a.rate.isSome ∧ b.rate.isSome ∧ a.rate = b.rate then 2 else 0

/-- Stated from the spec's words: the pack field's contribution, weight 3. -/
def pack_contribution (a b : EvaluationScreenData) : ℤ :=
  if a.pack.isSome ∧ b.pack.isSome ∧ a.pack = b.pack then 3 else 0

/-- Stated from the spec's words: the username field's contribution,
weight 5. -/
def username_contribution (a b : EvaluationScreenData) : ℤ :=
  if a.eo_username.isSome ∧ b.eo_username.isSome ∧ a.eo_username = b.eo_username
  then 5 else 0

/-- Stated from the spec's words: the song field's contribution, weight 6. -/
def song_contribution (a b : EvaluationScreenData) : ℤ :=
  if a.song.isSome ∧ b.song.isSome ∧ a.song = b.song then 6 else 0

/-- Stated from the spec's words: the artist field's contribution,
weight 3. -/
def artist_contribution (a b : EvaluationScreenData) : ℤ :=
  if a.artist.isSome ∧ b.artist.isSome ∧ a.artist = b.artist then 3 else 0

/-- Stated from the spec's words: the wifescore field's contribution —
weight 5 when present in both operands with absolute difference at most
0.01, zero otherwise. -/
def wifescore_contribution (a b : EvaluationScreenData) : ℤ :=
  match a.wifescore, b.wifescore with
  | some x, some y => if |x - y| ≤ 1 / 100 then 5 else 0
  | _, _ => 0

/-- Stated from the spec's words: the msd field's contribution, weight 6
within tolerance 0.01. -/
def msd_contribution (a b : EvaluationScreenData) : ℤ :=
  match a.msd, b.msd with
  | some x, some y => if |x - y| ≤ 1 / 100 then 6 else 0
  | _, _ => 0

/-- Stated from the spec's words: the ssr field's contribution, weight 6
within tolerance 0.01. -/
def ssr_contribution (a b : EvaluationScreenData) : ℤ :=
  match a.ssr, b.ssr with
  | some x, some y => if |x - y| ≤ 1 / 100 then 6 else 0
  | _, _ => 0

/-- Stated from the spec's words: the difficulty field's contribution,
weight 2. -/
def difficulty_contribution (a b : EvaluationScreenData) : ℤ :=
  if a.difficulty.isSome ∧ b.difficulty.isSome ∧ a.difficulty = b.difficulty
  then 2 else 0

/-- Stated from the spec's words: one judgement count's contribution —
weight 2 when the judgement groups are present in both operands and that
count is exactly equal, zero otherwise. -/
def judgement_count_contribution (proj : Judgements → ℕ)
    (a b : EvaluationScreenData) : ℤ :=
  match a.judgements, b.judgements with
  | some ja, some jb => if proj ja = proj jb then 2 else 0
  | _, _ => 0

/-- Stated from the spec's words: the sum of the per-field contributions of
the match score. -/
def match_score_by_fields (a b : EvaluationScreenData) : ℤ :=
  rate_contribution a b + pack_contribution a b + username_contribution a b
  + song_contribution a b + artist_contribution a b
  + wifescore_contribution a b + msd_contribution a b + ssr_contribution a b
  + difficulty_contribution a b
  + judgement_count_contribution Judgements.marvelouses a b
  + judgement_count_contribution Judgements.perfects a b
  + judgement_count_contribution Judgements.greats a b
  + judgement_count_contribution Judgements.goods a b
  + judgement_count_contribution Judgements.bads a b
  + judgement_count_contribution Judgements.misses a b

/-- The ten optional fields of a screen reading, used to state per-field
properties uniformly. -/
inductive OcrField where
  | rate | pack | eo_username | song | artist
  | wifescore | msd | ssr | difficulty | judgements
  deriving DecidableEq, Repr

/-- Copy one field of `b` into `a`. -/
def set_field_from (a b : EvaluationScreenData) : OcrField → EvaluationScreenData
  | OcrField.rate => { a with rate := b.rate }
  | OcrField.pack => { a with pack := b.pack }
  | OcrField.eo_username => { a with eo_username := b.eo_username }
  | OcrField.song => { a with song := b.song }
  | OcrField.artist => { a with artist := b.artist }
  | OcrField.wifescore => { a with wifescore := b.wifescore }
  | OcrField.msd => { a with msd := b.msd }
  | OcrField.ssr => { a with ssr := b.ssr }
  | OcrField.difficulty => { a with difficulty := b.difficulty }
  | OcrField.judgements => { a with judgements := b.judgements }

/-- Whether a field of a reading is absent. -/
def field_absent (a : EvaluationScreenData) : OcrField → Prop
  | OcrField.rate => a.rate = none
  | OcrField.pack => a.pack = none
  | OcrField.eo_username => a.eo_username = none
  | OcrField.song => a.song = none
  | OcrField.artist => a.artist = none
  | OcrField.wifescore => a.wifescore = none
  | OcrField.msd => a.msd = none
  | OcrField.ssr => a.ssr = none
  | OcrField.difficulty => a.difficulty = none
  | OcrField.judgements => a.judgements = none

/-! ## Helper lemmas about the matcher -/

theorem cmpWeight_decide_eq {α : Type} [DecidableEq α] (a b : Option α) (w : ℤ) :
    cmpWeight a b (fun x y => decide (x = y)) w =
      if a.isSome ∧ b.isSome ∧ a = b then w else 0 := by
  cases a <;> cases b <;> simp [cmpWeight]

theorem cmpWeight_judgement (proj : Judgements → ℕ) (a b : EvaluationScreenData) :
    cmpWeight (a.judgements.map proj) (b.judgements.map proj)
        (fun x y => decide (x = y)) 2 =
      judgement_count_contribution proj a b := by
  cases ha : a.judgements <;> cases hb : b.judgements <;>
    simp [cmpWeight, judgement_count_contribution, ha, hb]

theorem cmpWeight_float_eq (a b : Option ℚ) (w : ℤ) :
    cmpWeight a b floatEq w =
      match a, b with
      | some x, some y => if |x - y| ≤ 1 / 100 then w else 0
      | _, _ => 0 := by
  cases a <;> cases b <;> simp [cmpWeight, floatEq]

/-- The field-wise reading of `equality_score` (shared helper). -/
theorem equality_score_fieldwise (a b : EvaluationScreenData) :
    equality_score a b = match_score_by_fields a b := by
  unfold equality_score match_score_by_fields
  rw [cmpWeight_decide_eq, cmpWeight_decide_eq, cmpWeight_decide_eq,
    cmpWeight_decide_eq, cmpWeight_decide_eq, cmpWeight_decide_eq,
    cmpWeight_float_eq, cmpWeight_float_eq, cmpWeight_float_eq,
    cmpWeight_judgement, cmpWeight_judgement, cmpWeight_judgement,
    cmpWeight_judgement, cmpWeight_judgement, cmpWeight_judgement]
  rfl

theorem cmpWeight_nonneg {α : Type} (a b : Option α) (eqc : α → α → Bool)
    {w : ℤ} (hw : 0 ≤ w) : 0 ≤ cmpWeight a b eqc w := by
  cases a <;> cases b <;> simp only [cmpWeight] <;> first
    | rfl
    | (split
       · exact hw
       · rfl)

theorem cmpWeight_comm {α : Type} (a b : Option α) (eqc : α → α → Bool)
    (w : ℤ) (hsymm : ∀ x y, eqc x y = eqc y x) :
    cmpWeight a b eqc w = cmpWeight b a eqc w := by
  cases a <;> cases b <;> simp only [cmpWeight]
  rw [hsymm]


theorem cmpWeight_none_left {α : Type} (b : Option α) (eqc : α → α → Bool)
    (w : ℤ) : cmpWeight none b eqc w = 0 := rfl

theorem decide_eq_symm {α : Type} [DecidableEq α] (x y : α) :
    decide (x = y) = decide (y = x) := by
  simp [eq_comm]

theorem floatEq_symm (x y : ℚ) : floatEq x y = floatEq y x := by
  simp [floatEq, abs_sub_comm]

/-- C4: `matchScore` is the sum of the fixed per-field weights over fields
present in both operands and considered equal — exact equality for rate,
pack, username, song, artist, difficulty and each judgement count, absolute
tolerance 0.01 for wifescore, msd and ssr — with weights rate=2, pack=3,
username=5, song=6, artist=3, wifescore=5, msd=6, ssr=6, difficulty=2 and 2
per judgement count; a field absent in either operand contributes exactly
zero. -/
theorem equality_score_eq_sum_of_field_contributions
    (a b : EvaluationScreenData) :
    equality_score a b = match_score_by_fields a b :=
  equality_score_fieldwise a b

/-- C5: `matchScore` is commutative. -/
theorem equality_score_comm (a b : EvaluationScreenData) :
    equality_score a b = equality_score b a := by
  unfold equality_score
  rw [cmpWeight_comm a.rate b.rate _ _ (fun x y => decide_eq_symm x y),
    cmpWeight_comm a.pack b.pack _ _ (fun x y => decide_eq_symm x y),
    cmpWeight_comm a.eo_username b.eo_username _ _ (fun x y => decide_eq_symm x y),
    cmpWeight_comm a.song b.song _ _ (fun x y => decide_eq_symm x y),
    cmpWeight_comm a.artist b.artist _ _ (fun x y => decide_eq_symm x y),
    cmpWeight_comm a.wifescore b.wifescore _ _ floatEq_symm,
    cmpWeight_comm a.msd b.msd _ _ floatEq_symm,
    cmpWeight_comm a.ssr b.ssr _ _ floatEq_symm,
    cmpWeight_comm a.difficulty b.difficulty _ _ (fun x y => decide_eq_symm x y),
    cmpWeight_comm (a.judgements.map Judgements.marvelouses) _ _ _
      (fun x y => decide_eq_symm x y),
    cmpWeight_comm (a.judgements.map Judgements.perfects) _ _ _
      (fun x y => decide_eq_symm x y),
    cmpWeight_comm (a.judgements.map Judgements.greats) _ _ _
      (fun x y => decide_eq_symm x y),
    cmpWeight_comm (a.judgements.map Judgements.goods) _ _ _
      (fun x y => decide_eq_symm x y),
    cmpWeight_comm (a.judgements.map Judgements.bads) _ _ _
      (fun x y => decide_eq_symm x y),
    cmpWeight_comm (a.judgements.map Judgements.misses) _ _ _
      (fun x y => decide_eq_symm x y)]

/-- C6: filling one absent field of a reading with the candidate's value for
that field never decreases the match score against that candidate. -/
theorem equality_score_monotone_in_field (a b : EvaluationScreenData)
    (f : OcrField) (h : field_absent a f) :
    equality_score a b ≤ equality_score (set_field_from a b f) b := by
  have hw2 : (0 : ℤ) ≤ 2 := by norm_num
  have hw3 : (0 : ℤ) ≤ 3 := by norm_num
  have hw5 : (0 : ℤ) ≤ 5 := by norm_num
  have hw6 : (0 : ℤ) ≤ 6 := by norm_num
  cases f <;> simp only [field_absent] at h <;>
    simp only [equality_score, set_field_from, h, Option.map_none',
      cmpWeight_none_left] <;>
    first
    | linarith [cmpWeight_nonneg b.rate b.rate (fun x y => decide (x = y)) hw2]
    | linarith [cmpWeight_nonneg b.pack b.pack (fun x y => decide (x = y)) hw3]
    | linarith [cmpWeight_nonneg b.eo_username b.eo_username
        (fun x y => decide (x = y)) hw5]
    | linarith [cmpWeight_nonneg b.song b.song (fun x y => decide (x = y)) hw6]
    | linarith [cmpWeight_nonneg b.artist b.artist (fun x y => decide (x = y)) hw3]
    | linarith [cmpWeight_nonneg b.wifescore b.wifescore floatEq hw5]
    | linarith [cmpWeight_nonneg b.msd b.msd floatEq hw6]
    | linarith [cmpWeight_nonneg b.ssr b.ssr floatEq hw6]
    | linarith [cmpWeight_nonneg b.difficulty b.difficulty
        (fun x y => decide (x = y)) hw2]
    | linarith [cmpWeight_nonneg (b.judgements.map Judgements.marvelouses)
        (b.judgements.map Judgements.marvelouses) (fun x y => decide (x = y)) hw2,
      cmpWeight_nonneg (b.judgements.map Judgements.perfects)
        (b.judgements.map Judgements.perfects) (fun x y => decide (x = y)) hw2,
      cmpWeight_nonneg (b.judgements.map Judgements.greats)
        (b.judgements.map Judgements.greats) (fun x y => decide (x = y)) hw2,
      cmpWeight_nonneg (b.judgements.map Judgements.goods)
        (b.judgements.map Judgements.goods) (fun x y => decide (x = y)) hw2,
      cmpWeight_nonneg (b.judgements.map Judgements.bads)
        (b.judgements.map Judgements.bads) (fun x y => decide (x = y)) hw2,
      cmpWeight_nonneg (b.judgements.map Judgements.misses)
        (b.judgements.map Judgements.misses) (fun x y => decide (x = y)) hw2]

/-- Witness for C6 at a concrete reading/candidate pair: the song field is
absent in the empty reading, and filling it from the candidate does not
decrease the score. -/
theorem equality_score_monotone_in_field_witness :
    field_absent {} OcrField.song ∧
      equality_score {} { song := some "Game Time" } ≤
        equality_score
          (set_field_from {} { song := some "Game Time" } OcrField.song)
          { song := some "Game Time" } :=
  ⟨rfl, equality_score_monotone_in_field {} { song := some "Game Time" }
    OcrField.song rfl⟩

/-- C9: a replay note with an absent note kind is scored exactly like a tap
note — it contributes the wife-3 point value of its hit outcome and counts
as one countable note. -/
theorem replay_note_wife_points_absent_kind (n : ReplayNote)
    (h : n.note_type = none) :
    replay_note_wife_points n =
        replay_note_wife_points { n with note_type := some NoteType.Tap } ∧
      replay_note_wife_points n = (wife3 n.hit J4, 1) := by
  constructor <;> simp [replay_note_wife_points, h]

/-- Witness for C9 at a concrete note with no kind information. -/
theorem replay_note_wife_points_absent_kind_witness :
    (⟨0, Hit.hit 0, some 0, none⟩ : ReplayNote).note_type = none ∧
      replay_note_wife_points (⟨0, Hit.hit 0, some 0, none⟩ : ReplayNote) =
        (wife3 (Hit.hit 0) J4, 1) :=
  ⟨rfl,
    (replay_note_wife_points_absent_kind
      (⟨0, Hit.hit 0, some 0, none⟩ : ReplayNote) rfl).2⟩

/-- C10: a reaction whose reactor is the bot itself leaves the tracker
state unchanged and never triggers a reveal, whatever the tracker holds. -/
theorem reaction_add_by_bot_is_noop (bot_user_id : ℕ) (mgr : List Candidate)
    (message_id : ℕ) :
    reaction_add bot_user_id mgr message_id bot_user_id = (mgr, none) := by
  simp [reaction_add]

/-- C7: `adjust_offset` returns the mean deviation of the hit notes together
with a derived replay of the same length in which every note is the
bias-corrected copy of the original — hit deviations shifted down by the
mean, misses, lanes, kinds and times untouched, order preserved. -/
theorem adjust_offset_correct (r : Replay) :
    (adjust_offset r).1 = mean_deviation r ∧
      (adjust_offset r).2.notes.length = r.notes.length ∧
      ∀ i : ℕ,
        (adjust_offset r).2.notes.getD i defaultNote =
          bias_corrected_note (mean_deviation r) (r.notes.getD i defaultNote) := by
  refine ⟨rfl, by simp [adjust_offset], ?_⟩
  intro i
  simp only [adjust_offset, List.getD_eq_getElem?_getD, List.getElem?_map]
  cases h : r.notes[i]? with
  | none => rfl
  | some n =>
    simp only [Option.map_some', Option.getD_some]
    cases n with
    | mk time hit lane note_type =>
      cases hit <;> simp [bias_corrected_note]

/-! ## Helper lemmas for the matching loop -/

theorem best_theme_score_nonneg (readings : List EvaluationScreenData)
    (cand : EvaluationScreenData) : 0 ≤ best_theme_score readings cand := by
  unfold best_theme_score
  have key : ∀ (l : List EvaluationScreenData) (b : ℤ),
      b ≤ l.foldl
        (fun best r =>
          let s := equality_score r cand
          if s > best then s else best) b := by
    intro l
    induction l with
    | nil => intro b; simp
    | cons x xs ih =>
      intro b
      simp only [List.foldl_cons]
      refine le_trans ?_ (ih _)
      dsimp only
      split
      · next hgt => exact le_of_lt hgt
      · exact le_refl b
  exact key readings 0

theorem identify_fold_characterization (readings : List EvaluationScreenData) :
    ∀ (cands : List (String × EvaluationScreenData)) (acc : ℤ × Option String),
      (acc.2 = none → acc.1 = -2147483648) →
      (∀ sk, (cands.foldl (identify_step readings) acc).2 = some sk →
          acc.2 = some sk ∨
            ∃ c ∈ cands, c.1 = sk ∧ 8 < best_theme_score readings c.2) ∧
      ((cands.foldl (identify_step readings) acc).2 = none →
          acc.2 = none ∧ ∀ c ∈ cands, best_theme_score readings c.2 ≤ 8) := by
  intro cands
  induction cands with
  | nil =>
    intro acc hacc
    refine ⟨fun sk h => Or.inl h, fun h => ⟨h, by simp⟩⟩
  | cons c rest ih =>
    intro acc hacc
    simp only [List.foldl_cons]
    by_cases hcond : best_theme_score readings c.2 >
        MINIMUM_EQUALITY_SCORE_TO_BE_PROBABLY_EQUAL ∧
        best_theme_score readings c.2 > acc.1
    · have hstep : identify_step readings acc c =
          (best_theme_score readings c.2, some c.1) := by
        simp only [identify_step]
        rw [if_pos hcond]
      rw [hstep]
      obtain ⟨ha, hb⟩ := ih (best_theme_score readings c.2, some c.1)
        (by intro hn; simp at hn)
      constructor
      · intro sk hsk
        rcases ha sk hsk with h | ⟨c', hc', h1, h2⟩
        · refine Or.inr ⟨c, by simp, ?_, ?_⟩
          · simpa using h
          · exact hcond.1
        · exact Or.inr ⟨c', List.mem_cons_of_mem _ hc', h1, h2⟩
      · intro hnone
        have := (hb hnone).1
        simp at this
    · have hstep : identify_step readings acc c = acc := by
        simp only [identify_step]
        rw [if_neg hcond]
      rw [hstep]
      obtain ⟨ha, hb⟩ := ih acc hacc
      constructor
      · intro sk hsk
        rcases ha sk hsk with h | ⟨c', hc', h1, h2⟩
        · exact Or.inl h
        · exact Or.inr ⟨c', List.mem_cons_of_mem _ hc', h1, h2⟩
      · intro hnone
        obtain ⟨haccnone, hrest⟩ := hb hnone
        refine ⟨haccnone, ?_⟩
        intro c' hc'
        rcases List.mem_cons.mp hc' with rfl | hmem
        · have hmin := hacc haccnone
          have hnn := best_theme_score_nonneg readings c'.2
          rcases not_and_or.mp hcond with h1 | h2
          · have : MINIMUM_EQUALITY_SCORE_TO_BE_PROBABLY_EQUAL = 8 := rfl
            rw [this] at h1
            omega
          · exfalso
            rw [hmin] at h2
            omega
        · exact hrest c' hmem

theorem identify_fold_fixed_of_all_below (readings : List EvaluationScreenData) :
    ∀ (cands : List (String × EvaluationScreenData)) (acc : ℤ × Option String),
      (∀ c ∈ cands, best_theme_score readings c.2 ≤ 8) →
      cands.foldl (identify_step readings) acc = acc := by
  intro cands
  induction cands with
  | nil => intro acc _; rfl
  | cons c rest ih =>
    intro acc hall
    simp only [List.foldl_cons]
    have hc := hall c (by simp)
    have hstep : identify_step readings acc c = acc := by
      simp only [identify_step]
      rw [if_neg]
      intro hcontra
      have h8 : MINIMUM_EQUALITY_SCORE_TO_BE_PROBABLY_EQUAL = 8 := rfl
      have := hcontra.1
      rw [h8] at this
      omega
    rw [hstep]
    exact ih acc (fun c' h => hall c' (List.mem_cons_of_mem _ h))

/-- C1: the matching loop returns a scorekey only for a candidate whose best
match score over all screen readings strictly exceeds the threshold 8, and
returns none exactly when no candidate clears the threshold. -/
theorem identify_best_match_threshold (readings : List EvaluationScreenData)
    (candidates : List (String × EvaluationScreenData)) :
    (∀ sk, identify_best_match readings candidates = some sk →
        ∃ c ∈ candidates, c.1 = sk ∧ 8 < best_theme_score readings c.2) ∧
      (identify_best_match readings candidates = none ↔
        ∀ c ∈ candidates, best_theme_score readings c.2 ≤ 8) := by
  obtain ⟨ha, hb⟩ := identify_fold_characterization readings candidates
    (-2147483648, none) (fun _ => rfl)
  constructor
  · intro sk h
    rcases ha sk h with habs | hex
    · simp at habs
    · exact hex
  · constructor
    · intro h
      exact (hb h).2
    · intro hall
      show (candidates.foldl (identify_step readings) (-2147483648, none)).2 = none
      rw [identify_fold_fixed_of_all_below readings candidates _ hall]

/-- Witness for C1 at a concrete input: a reading agreeing with the
candidate on song (weight 6) and artist (weight 3) scores 9 > 8 and is
returned. -/
theorem identify_best_match_threshold_witness :
    ∃ c ∈ [("SK1", ({ song := some "Game Time", artist := some "Kommisar" }
        : EvaluationScreenData))],
      c.1 = "SK1" ∧
        8 < best_theme_score
          [{ song := some "Game Time", artist := some "Kommisar" }] c.2 :=
  (identify_best_match_threshold
      [{ song := some "Game Time", artist := some "Kommisar" }]
      [("SK1", { song := some "Game Time", artist := some "Kommisar" })]).1
    "SK1" (by decide)

/-! ## Helper lemmas for the confirmation tracker -/

/-- The reveal invariant: the first tracked candidate for a message (if any)
has already had its card printed. -/
def first_candidate_printed (mgr : List Candidate) (mid : ℕ) : Prop :=
  ∀ c, mgr.find? (fun x => x.message_id == mid) = some c →
    c.score_card_has_been_printed = true

theorem first_candidate_printed_tail {c : Candidate} {rest : List Candidate}
    {mid : ℕ} (hm : ¬c.message_id = mid)
    (hP : first_candidate_printed (c :: rest) mid) :
    first_candidate_printed rest mid := by
  intro c' hc'
  apply hP c'
  simp only [List.find?]
  rw [show (c.message_id == mid) = false by simp [hm]]
  exact hc'

theorem add_reaction_printed_after_reveal (mgr : List Candidate)
    (mid rid : ℕ) (res : String × ℕ)
    (h : (add_reaction mgr mid rid).2 = some res) :
    first_candidate_printed (add_reaction mgr mid rid).1 mid := by
  induction mgr with
  | nil => simp [add_reaction] at h
  | cons c rest ih =>
    by_cases hm : c.message_id = mid
    · rw [add_reaction, if_pos hm] at h ⊢
      by_cases hp : c.score_card_has_been_printed = true
      · rw [if_pos hp] at h
        simp at h
      · rw [if_neg hp] at h ⊢
        by_cases hcond : c.author_id ∈ insert rid c.reactors ∧
            2 ≤ (insert rid c.reactors).card
        · rw [if_pos hcond] at h ⊢
          intro c' hc'
          simp [List.find?, hm] at hc'
          rw [← hc']
        · rw [if_neg hcond] at h
          simp at h
    · rw [add_reaction, if_neg hm] at h ⊢
      intro c' hc'
      simp only [List.find?] at hc'
      rw [show (c.message_id == mid) = false by simp [hm]] at hc'
      exact ih h c' hc'

theorem add_reaction_preserves_printed (mgr : List Candidate) (mid : ℕ)
    (hP : first_candidate_printed mgr mid) (mid2 rid2 : ℕ) :
    first_candidate_printed (add_reaction mgr mid2 rid2).1 mid := by
  induction mgr with
  | nil => simpa [add_reaction] using hP
  | cons c rest ih =>
    by_cases hm2 : c.message_id = mid2
    · rw [add_reaction, if_pos hm2]
      by_cases hp : c.score_card_has_been_printed = true
      · rw [if_pos hp]
        exact hP
      · rw [if_neg hp]
        by_cases hcond : c.author_id ∈ insert rid2 c.reactors ∧
            2 ≤ (insert rid2 c.reactors).card
        · rw [if_pos hcond]
          intro c' hc'
          by_cases hm : c.message_id = mid
          · simp [List.find?, hm] at hc'
            rw [← hc']
          · simp only [List.find?] at hc'
            rw [show (c.message_id == mid) = false by simp [hm]] at hc'
            exact first_candidate_printed_tail hm hP c' hc'
        · rw [if_neg hcond]
          intro c' hc'
          by_cases hm : c.message_id = mid
          · exfalso
            exact hp (hP c (by simp [List.find?, hm]))
          · simp only [List.find?] at hc'
            rw [show (c.message_id == mid) = false by simp [hm]] at hc'
            exact first_candidate_printed_tail hm hP c' hc'
    · rw [add_reaction, if_neg hm2]
      intro c' hc'
      by_cases hm : c.message_id = mid
      · simp [List.find?, hm] at hc'
        rw [← hc']
        exact hP c (by simp [List.find?, hm])
      · simp only [List.find?] at hc'
        rw [show (c.message_id == mid) = false by simp [hm]] at hc'
        exact ih (first_candidate_printed_tail hm hP) c' hc'

theorem add_reaction_none_of_printed (mgr : List Candidate) (mid : ℕ)
    (hP : first_candidate_printed mgr mid) (rid : ℕ) :
    (add_reaction mgr mid rid).2 = none := by
  induction mgr with
  | nil => rfl
  | cons c rest ih =>
    by_cases hm : c.message_id = mid
    · rw [add_reaction, if_pos hm]
      have hp : c.score_card_has_been_printed = true :=
        hP c (by simp [List.find?, hm])
      rw [if_pos hp]
    · rw [add_reaction, if_neg hm]
      exact ih (first_candidate_printed_tail hm hP)

theorem process_reactions_preserves_printed (mid : ℕ) :
    ∀ (evs : List (ℕ × ℕ)) (mgr : List Candidate),
      first_candidate_printed mgr mid →
      first_candidate_printed (process_reactions mgr evs) mid := by
  intro evs
  induction evs with
  | nil => intro mgr hP; exact hP
  | cons ev rest ih =>
    intro mgr hP
    exact ih _ (add_reaction_preserves_printed mgr mid hP ev.1 ev.2)

theorem add_reaction_some_characterization (mgr : List Candidate)
    (mid rid : ℕ) (sk : String) (uid : ℕ) :
    (add_reaction mgr mid rid).2 = some (sk, uid) ↔
      ∃ c, mgr.find? (fun x => x.message_id == mid) = some c ∧
        c.score_card_has_been_printed = false ∧
        c.author_id ∈ insert rid c.reactors ∧
        2 ≤ (insert rid c.reactors).card ∧
        c.scorekey = sk ∧ c.user_id = uid := by
  induction mgr with
  | nil => simp [add_reaction]
  | cons c rest ih =>
    by_cases hm : c.message_id = mid
    · have hfind : (c :: rest).find? (fun x => x.message_id == mid) = some c := by
        simp [List.find?, hm]
      rw [add_reaction, if_pos hm]
      by_cases hp : c.score_card_has_been_printed = true
      · rw [if_pos hp]
        simp [hfind, hp]
      · rw [if_neg hp]
        by_cases hcond : c.author_id ∈ insert rid c.reactors ∧
            2 ≤ (insert rid c.reactors).card
        · rw [if_pos hcond]
          simp only [hfind]
          constructor
          · intro h
            simp at h
            exact ⟨c, rfl, Bool.eq_false_iff.mpr hp, hcond.1, hcond.2,
              h.1, h.2⟩
          · rintro ⟨c', hc', _, _, _, hsk, huid⟩
            simp at hc'
            rw [← hc'] at hsk huid
            simp [hsk, huid]
        · rw [if_neg hcond]
          simp only [hfind]
          constructor
          · intro h
            simp at h
          · rintro ⟨c', hc', _, hmem, hcard, _, _⟩
            simp at hc'
            rw [← hc'] at hmem hcard
            exact absurd ⟨hmem, hcard⟩ hcond
    · rw [add_reaction, if_neg hm]
      have hfind : (c :: rest).find? (fun x => x.message_id == mid) =
          rest.find? (fun x => x.message_id == mid) := by
        simp only [List.find?]
        rw [show (c.message_id == mid) = false by simp [hm]]
      rw [hfind] at *
      exact ih

/-- C2: `add_reaction` returns the `(scorekey, user id)` pair exactly when a
pending (non-revealed) candidate is tracked for the message and, after
inserting the reactor, the reactor set contains the candidate's author and
has at least two members; and once a reveal has been returned, every
subsequent reaction for that same message returns none, whatever reactions
arrive in between. -/
theorem add_reaction_reveal_protocol (mgr : List Candidate) (mid rid : ℕ) :
    (∀ sk uid, (add_reaction mgr mid rid).2 = some (sk, uid) ↔
      ∃ c, mgr.find? (fun x => x.message_id == mid) = some c ∧
        c.score_card_has_been_printed = false ∧
        c.author_id ∈ insert rid c.reactors ∧
        2 ≤ (insert rid c.reactors).card ∧
        c.scorekey = sk ∧ c.user_id = uid) ∧
    (∀ res, (add_reaction mgr mid rid).2 = some res →
      ∀ (evs : List (ℕ × ℕ)) (rid2 : ℕ),
        (add_reaction (process_reactions (add_reaction mgr mid rid).1 evs)
          mid rid2).2 = none) := by
  constructor
  · intro sk uid
    exact add_reaction_some_characterization mgr mid rid sk uid
  · intro res h evs rid2
    exact add_reaction_none_of_printed _ mid
      (process_reactions_preserves_printed mid evs _
        (add_reaction_printed_after_reveal mgr mid rid res h)) rid2

/-- Witness for C2 at a concrete scenario: a pending candidate authored by
user 5 with 5 already in the reactor set is revealed by a reaction from
user 9, and a later reaction on the same message (after an unrelated
in-between reaction) returns none. -/
theorem add_reaction_reveal_protocol_witness :
    (add_reaction
      (process_reactions
        (add_reaction [⟨1, 5, "S1", 77, {5}, false⟩] 1 9).1 [(1, 12)])
      1 15).2 = none :=
  (add_reaction_reveal_protocol [⟨1, 5, "S1", 77, {5}, false⟩] 1 9).2
    ("S1", 77) (by decide) [(1, 12)] 15

/-! ## The propagation behaviour of `do_replay_analysis` -/

/-- Counterexample to C3: a replay consisting of one hit mine has zero
countable notes, so rescoring is unavailable; the other analytics of the
same replay are all available, yet `do_replay_analysis` omits the whole
analysis (returns none) instead of omitting only the unavailable field. -/
theorem do_replay_analysis_counterexample :
    rescore (Replay.mk [⟨1, Hit.hit 0, some 0, some NoteType.Mine⟩]) 0 0 J4
        WifeVariant.wifeThree = none ∧
      (max_finger_nps
        (Replay.mk [⟨1, Hit.hit 0, some 0, some NoteType.Mine⟩])).isSome = true ∧
      (fastest_nps
        (Replay.mk [⟨1, Hit.hit 0, some 0, some NoteType.Mine⟩])).isSome = true ∧
      do_replay_analysis
        (ScoreData.mk (some (Replay.mk [⟨1, Hit.hit 0, some 0, some NoteType.Mine⟩]))
          (FullJudgements.mk 0 0 0)) none = none := by
  have h2 : rescore (Replay.mk [⟨1, Hit.hit 0, some 0, some NoteType.Mine⟩]) 0 0 J4
      WifeVariant.wifeTwo = none := by
    simp [rescore]
  refine ⟨by simp [rescore], ?_, ?_, ?_⟩
  · simp [max_finger_nps, split_into_lanes]
  · simp [fastest_nps, split_into_notes_and_hits]
  · simp [do_replay_analysis, make_scoring_system_comparison, h2]

/-- C3 as amended: the replay analysis is all-or-nothing — it is produced
exactly when the replay is present and every required analytic (both
scoring-system comparisons, the finger jackspeed and the overall NPS) is
available; one unavailable analytic omits the whole analysis. -/
theorem do_replay_analysis_all_or_nothing (score : ScoreData)
    (aj : Option Judge) :
    (do_replay_analysis score aj).isSome = true ↔
      ∃ r, score.replay = some r ∧
        (make_scoring_system_comparison score r (adjust_offset r).2 J4).isSome = true ∧
        (∀ j, aj = some j →
          (make_scoring_system_comparison score r (adjust_offset r).2 j).isSome = true) ∧
        (max_finger_nps r).isSome = true ∧ (fastest_nps r).isSome = true := by
  cases hr : score.replay with
  | none => simp [do_replay_analysis, hr]
  | some r =>
    cases hc : make_scoring_system_comparison score r (adjust_offset r).2 J4 with
    | none => simp [do_replay_analysis, hr, hc]
    | some cj4 =>
      cases aj with
      | none =>
        cases hf : max_finger_nps r with
        | none => simp [do_replay_analysis, hr, hc, hf]
        | some ffj =>
          cases hn : fastest_nps r with
          | none => simp [do_replay_analysis, hr, hc, hf, hn]
          | some fn => simp [do_replay_analysis, hr, hc, hf, hn]
      | some j =>
        cases hcj : make_scoring_system_comparison score r (adjust_offset r).2 j with
        | none => simp [do_replay_analysis, hr, hc, hcj]
        | some cjj =>
          cases hf : max_finger_nps r with
          | none => simp [do_replay_analysis, hr, hc, hcj, hf]
          | some ffj =>
            cases hn : fastest_nps r with
            | none => simp [do_replay_analysis, hr, hc, hcj, hf, hn]
            | some fn => simp [do_replay_analysis, hr, hc, hcj, hf, hn]

/-! ## Helper lemmas for judge extraction -/

theorem char_le_iff_toNat_le (a b : Char) : a ≤ b ↔ a.toNat ≤ b.toNat :=
  Iff.rfl

theorem isDigit_iff_toNat {d : Char} :
    d.isDigit = true ↔ 48 ≤ d.toNat ∧ d.toNat ≤ 57 := by
  simp only [Char.isDigit, Bool.and_eq_true, decide_eq_true_eq, ge_iff_le]
  constructor
  · rintro ⟨h1, h2⟩
    exact ⟨h1, h2⟩
  · rintro ⟨h1, h2⟩
    exact ⟨h1, h2⟩

theorem between_one_nine_iff {d : Char} :
    ('1' ≤ d && d ≤ '9') = true ↔ 49 ≤ d.toNat ∧ d.toNat ≤ 57 := by
  simp only [Bool.and_eq_true, decide_eq_true_eq]
  rw [char_le_iff_toNat_le, char_le_iff_toNat_le]
  exact Iff.rfl

theorem isJChar_eq_false_of_isDigit {d : Char} (h : d.isDigit = true) :
    isJChar d = false := by
  cases hj : isJChar d
  · rfl
  · exfalso
    have hd : d = 'j' ∨ d = 'J' := by
      simpa [isJChar] using hj
    rcases hd with rfl | rfl
    · exact absurd h (by decide)
    · exact absurd h (by decide)

theorem isDigit_of_between {d : Char} (h : ('1' ≤ d && d ≤ '9') = true) :
    d.isDigit = true := by
  obtain ⟨h1, h2⟩ := between_one_nine_iff.mp h
  exact isDigit_iff_toNat.mpr ⟨by omega, h2⟩

theorem judge_of_number_isSome_of_between {d : Char}
    (h : ('1' ≤ d && d ≤ '9') = true) :
    (judge_of_number (digitVal d)).isSome = true := by
  obtain ⟨h1, h2⟩ := between_one_nine_iff.mp h
  have hv : 1 ≤ digitVal d ∧ digitVal d ≤ 9 := by
    unfold digitVal
    rw [show Char.toNat '0' = 48 from rfl]
    constructor <;> omega
  obtain ⟨hv1, hv2⟩ := hv
  set k := digitVal d with hk
  interval_cases k <;> rfl

theorem judge_of_number_eq_none_of_not_between {d : Char}
    (hd : d.isDigit = true) (h : ('1' ≤ d && d ≤ '9') = false) :
    judge_of_number (digitVal d) = none := by
  obtain ⟨h1, h2⟩ := isDigit_iff_toNat.mp hd
  have hnot : ¬(49 ≤ d.toNat ∧ d.toNat ≤ 57) := by
    intro hc
    rw [between_one_nine_iff.mpr hc] at h
    exact Bool.noConfusion h
  have hz : digitVal d = 0 := by
    unfold digitVal
    rw [show Char.toNat '0' = 48 from rfl]
    omega
  rw [hz]
  rfl

theorem first_judge_cons_digit {d : Char} (hd : d.isDigit = true)
    (rest : List Char) :
    first_judge_occurrence (d :: rest) = first_judge_occurrence rest := by
  cases rest with
  | nil => rfl
  | cons e rest' =>
    rw [first_judge_occurrence]
    rw [isJChar_eq_false_of_isDigit hd]
    simp [first_judge_occurrence]

/-- C8: judge extraction returns exactly the built-in judge selected by the
first occurrence in the string of `j`/`J` immediately followed by a digit
1–9 (first match wins), and none when no such occurrence exists. -/
theorem extract_judge_eq_first_occurrence (s : List Char) :
    extract_judge_from_string s = first_judge_occurrence s := by
  unfold extract_judge_from_string
  induction s using judge_regex_captures.induct with
  | case1 c d rest hcond ih =>
    have hc : isJChar c = true := (Bool.and_eq_true_iff.mp hcond).1
    have hd : d.isDigit = true := (Bool.and_eq_true_iff.mp hcond).2
    rw [judge_regex_captures, if_pos hcond, List.filterMap_cons,
      first_judge_occurrence]
    cases h19 : ('1' ≤ d && d ≤ '9') with
    | true =>
      obtain ⟨j, hj⟩ := Option.isSome_iff_exists.mp
        (judge_of_number_isSome_of_between h19)
      rw [hj, if_pos (by simp [hc, h19])]
      simp [hj]
    | false =>
      rw [judge_of_number_eq_none_of_not_between hd h19,
        if_neg (by simp [hc, h19]), first_judge_cons_digit hd]
      exact ih
  | case2 c d rest hcond ih =>
    rw [judge_regex_captures]
    rw [if_neg hcond, first_judge_occurrence]
    have hcond' : (isJChar c && d.isDigit) = false :=
      Bool.eq_false_iff.mpr hcond
    have hspec : (isJChar c && ('1' ≤ d && d ≤ '9')) = false := by
      cases hjc : isJChar c with
      | false => simp [hjc]
      | true =>
        rw [hjc] at hcond'
        simp only [Bool.true_and] at hcond'
        cases h19 : ('1' ≤ d && d ≤ '9') with
        | false => simp [h19]
        | true =>
          rw [isDigit_of_between h19] at hcond'
          exact Bool.noConfusion hcond'
    rw [if_neg (by simp [hspec] at *; try exact hspec)]
    exact ih
  | case3 s h =>
    cases s with
    | nil => rfl
    | cons c rest =>
      cases rest with
      | nil => rfl
      | cons d rest' => exact (h c d rest' rfl).elim

end Etternabot
